import Mathlib

/-!
Shallow embedding of `src/backend/server.py`: a FastAPI CRUD backend for a
portfolio-project catalog backed by a MongoDB document store.

Modelling choices:
* JSON/BSON values are `BValue`; a Mongo document and a JSON request body are
  association lists `Doc` (first binding for a key wins, as in a Python dict
  that is never rebound).
* Datetimes are `Nat` timestamps; the current time is passed to each handler
  as an explicit `now` argument (the real code calls `datetime.utcnow()`).
* `uuid.uuid4()` is an external source of fresh identifiers; it is modelled
  as a deterministic injective supply `genId` indexed by a per-process
  counter carried in `ServerState.nextId`.  Injectivity of `genId` stands
  for uuid uniqueness; the exact string shape is irrelevant to the handlers.
* Pydantic validation of a request body is `ProjectCreate.parse` /
  `StatusCheckCreate.parse`: a declared field is read by name, a missing
  required field or a value of the wrong basic shape is a validation error,
  and undeclared keys are ignored (pydantic's default `extra = ignore`).
  Basic shapes follow the declared annotations: `str` fields accept exactly
  strings, `List[str]` exactly lists of strings, `Optional[str]` a string,
  null or absence, `bool` a Boolean.  Lax numeric/string coercions of some
  pydantic versions are not modelled; no theorem below exercises them.
* `model.dict()` is `Project.dict` / `StatusCheck.dict`: a Python dict with
  one entry per declared field, `None` serialised as null (the key is
  present).  Reconstruction `Project(**doc)` is `Project.ofDoc`; the
  `default_factory` branches for `id`/`created_date` are modelled as errors
  because every document reaching that call was produced by `Project.dict`,
  which always includes both keys (Mongo's extra `_id` key is ignored like
  any undeclared key).
-/

namespace Portfolio

/-- JSON/BSON-like values stored in documents and sent in request bodies. -/
inductive BValue where
  | str (s : String)
  | int (n : Int)
  | bool (b : Bool)
  | list (xs : List BValue)
  | null
  | date (t : Nat)

/-- A document: an association list from field names to values. -/
abbrev Doc := List (String × BValue)

/-- Field lookup in a document: the first binding for the key, if any. -/
def Doc.get (d : Doc) (k : String) : Option BValue :=
  (d.find? (fun kv => kv.1 == k)).map (·.2)

/-- The stored shape of a status check (`StatusCheck` in `server.py`). -/
structure StatusCheck where
  id : String
  client_name : String
  timestamp : Nat
deriving DecidableEq, Repr

/-- The create shape of a status check (`StatusCheckCreate`). -/
structure StatusCheckCreate where
  client_name : String
deriving DecidableEq, Repr

/-- The stored shape of a project (`Project` in `server.py`). -/
structure Project where
  id : String
  title : String
  description : String
  tech_stack : List String
  image_url : String
  demo_url : Option String
  github_url : Option String
  category : String
  created_date : Nat
  featured : Bool
deriving DecidableEq, Repr

/-- The create shape of a project (`ProjectCreate` in `server.py`). -/
structure ProjectCreate where
  title : String
  description : String
  tech_stack : List String
  image_url : String
  demo_url : Option String
  github_url : Option String
  category : String
  featured : Bool
deriving DecidableEq, Repr

/-- Validation of a required `str` field from its looked-up value. -/
def reqStr (fieldName : String) (v : Option BValue) : Except String String :=
  match v with
  | some (BValue.str s) => Except.ok s
  | some _ => Except.error (fieldName ++ ": value is not a valid string")
  | none => Except.error (fieldName ++ ": field required")

/-- Validation of one element of a `List[str]` field. -/
def strElem (fieldName : String) (v : BValue) : Except String String :=
  match v with
  | BValue.str s => Except.ok s
  | _ => Except.error (fieldName ++ ": element is not a valid string")

/-- Validation of every element of a `List[str]` field. -/
def strElems (fieldName : String) : List BValue → Except String (List String)
  | [] => Except.ok []
  | v :: vs => do
    let s ← strElem fieldName v
    let ss ← strElems fieldName vs
    Except.ok (s :: ss)

/-- Validation of a required `List[str]` field from its looked-up value. -/
def reqStrList (fieldName : String) (v : Option BValue) :
    Except String (List String) :=
  match v with
  | some (BValue.list xs) => strElems fieldName xs
  | some _ => Except.error (fieldName ++ ": value is not a valid list")
  | none => Except.error (fieldName ++ ": field required")

/-- Validation of an `Optional[str]` field: absence and null both mean
`None`. -/
def optStr (fieldName : String) (v : Option BValue) :
    Except String (Option String) :=
  match v with
  | some (BValue.str s) => Except.ok (some s)
  | some BValue.null => Except.ok none
  | some _ => Except.error (fieldName ++ ": value is not a valid string")
  | none => Except.ok none

/-- Validation of a `bool` field with a default for absence. -/
def optBool (fieldName : String) (dflt : Bool) (v : Option BValue) :
    Except String Bool :=
  match v with
  | some (BValue.bool b) => Except.ok b
  | some _ => Except.error (fieldName ++ ": value is not a valid boolean")
  | none => Except.ok dflt

/-- Validation of a required `Nat` timestamp field (`datetime`). -/
def reqDate (fieldName : String) (v : Option BValue) : Except String Nat :=
  match v with
  | some (BValue.date t) => Except.ok t
  | some _ => Except.error (fieldName ++ ": value is not a valid datetime")
  | none => Except.error (fieldName ++ ": field required")

/-- Pydantic validation of a `ProjectCreate` request body.  Undeclared keys
are never read, hence ignored. -/
def ProjectCreate.parse (d : Doc) : Except String ProjectCreate := do
  let title ← reqStr "title" (d.get "title")
  let description ← reqStr "description" (d.get "description")
  let tech_stack ← reqStrList "tech_stack" (d.get "tech_stack")
  let image_url ← reqStr "image_url" (d.get "image_url")
  let demo_url ← optStr "demo_url" (d.get "demo_url")
  let github_url ← optStr "github_url" (d.get "github_url")
  let category ← reqStr "category" (d.get "category")
  let featured ← optBool "featured" false (d.get "featured")
  Except.ok { title, description, tech_stack, image_url, demo_url,
              github_url, category, featured }

/-- Pydantic validation of a `StatusCheckCreate` request body. -/
def StatusCheckCreate.parse (d : Doc) : Except String StatusCheckCreate := do
  let client_name ← reqStr "client_name" (d.get "client_name")
  Except.ok { client_name }

/-- Serialisation of an optional string field: `None` becomes null. -/
def optStrVal : Option String → BValue
  | some s => BValue.str s
  | none => BValue.null

/-- `project_obj.dict()`: one entry per declared field, `None` as null. -/
def Project.dict (p : Project) : Doc :=
  [("id", BValue.str p.id),
   ("title", BValue.str p.title),
   ("description", BValue.str p.description),
   ("tech_stack", BValue.list (p.tech_stack.map BValue.str)),
   ("image_url", BValue.str p.image_url),
   ("demo_url", optStrVal p.demo_url),
   ("github_url", optStrVal p.github_url),
   ("category", BValue.str p.category),
   ("created_date", BValue.date p.created_date),
   ("featured", BValue.bool p.featured)]

/-- `status_obj.dict()`. -/
def StatusCheck.dict (c : StatusCheck) : Doc :=
  [("id", BValue.str c.id),
   ("client_name", BValue.str c.client_name),
   ("timestamp", BValue.date c.timestamp)]

/-- `Project(**doc)` for a document read back from the store.  See the file
header for the treatment of the `default_factory` branches. -/
def Project.ofDoc (d : Doc) : Except String Project := do
  let id ← reqStr "id" (d.get "id")
  let title ← reqStr "title" (d.get "title")
  let description ← reqStr "description" (d.get "description")
  let tech_stack ← reqStrList "tech_stack" (d.get "tech_stack")
  let image_url ← reqStr "image_url" (d.get "image_url")
  let demo_url ← optStr "demo_url" (d.get "demo_url")
  let github_url ← optStr "github_url" (d.get "github_url")
  let category ← reqStr "category" (d.get "category")
  let created_date ← reqDate "created_date" (d.get "created_date")
  let featured ← optBool "featured" false (d.get "featured")
  Except.ok { id, title, description, tech_stack, image_url, demo_url,
              github_url, category, created_date, featured }

/-- `StatusCheck(**doc)` for a document read back from the store. -/
def StatusCheck.ofDoc (d : Doc) : Except String StatusCheck := do
  let id ← reqStr "id" (d.get "id")
  let client_name ← reqStr "client_name" (d.get "client_name")
  let timestamp ← reqDate "timestamp" (d.get "timestamp")
  Except.ok { id, client_name, timestamp }

/-- The fresh-identifier supply standing for `uuid.uuid4()`: the n-th
identifier issued by the process.  Injective by construction (the length of
the string determines n), which models uuid uniqueness. -/
def genId (n : Nat) : String :=
  String.mk (List.replicate (n + 1) 'u')

/-- The mutable state of the backend: the two Mongo collections (in
insertion order) and the fresh-identifier counter. -/
structure ServerState where
  projects : List Doc
  status_checks : List Doc
  nextId : Nat

/-- An HTTP error: status code and detail message. -/
abbrev HTTPError := Nat × String

/-- Does a stored document match the Mongo filter `{"id": project_id}`? -/
def matchesId (project_id : String) (d : Doc) : Bool :=
  match d.get "id" with
  | some (BValue.str s) => s == project_id
  | _ => false

/-- Enrichment and insertion for `POST /api/status`
(`create_status_check`). -/
def create_status_check (s : ServerState) (now : Nat)
    (input : StatusCheckCreate) : StatusCheck × ServerState :=
  let status_obj : StatusCheck :=
    { id := genId s.nextId, client_name := input.client_name,
      timestamp := now }
  (status_obj,
   { s with status_checks := s.status_checks ++ [status_obj.dict],
            nextId := s.nextId + 1 })

/-- `POST /api/status` from the raw request body: validation then
enrichment/insertion; a validation failure is a 422 and no write. -/
def create_status_check_route (s : ServerState) (now : Nat) (body : Doc) :
    Except HTTPError StatusCheck × ServerState :=
  match StatusCheckCreate.parse body with
  | Except.error e => (Except.error (422, e), s)
  | Except.ok input =>
    let r := create_status_check s now input
    (Except.ok r.1, r.2)

/-- Reconstruction of every stored document, propagating the first failure
(the list comprehension in the handlers). -/
def parseAll {α : Type} (f : Doc → Except String α) :
    List Doc → Except String (List α)
  | [] => Except.ok []
  | d :: ds => do
    let a ← f d
    let as ← parseAll f ds
    Except.ok (a :: as)

/-- `GET /api/status` (`get_status_checks`): fetch capped at 1000,
reconstruct each record. -/
def get_status_checks (s : ServerState) :
    Except HTTPError (List StatusCheck) :=
  match parseAll StatusCheck.ofDoc (s.status_checks.take 1000) with
  | Except.ok xs => Except.ok xs
  | Except.error _ => Except.error (500, "Internal Server Error")

/-- `GET /api/projects` (`get_projects`): fetch capped at 1000,
reconstruct each record. -/
def get_projects (s : ServerState) : Except HTTPError (List Project) :=
  match parseAll Project.ofDoc (s.projects.take 1000) with
  | Except.ok xs => Except.ok xs
  | Except.error _ => Except.error (500, "Internal Server Error")

/-- `GET /api/projects/{project_id}` (`get_project`): `find_one` on the id
filter, 404 when nothing matches. -/
def get_project (s : ServerState) (project_id : String) :
    Except HTTPError Project :=
  match s.projects.find? (matchesId project_id) with
  | none => Except.error (404, "Project not found")
  | some d =>
    match Project.ofDoc d with
    | Except.ok p => Except.ok p
    | Except.error _ => Except.error (500, "Internal Server Error")

/-- Enrichment and insertion for `POST /api/projects` (`create_project`):
`Project(**project.dict())` assigns a fresh id and the current time and
copies every client field verbatim. -/
def create_project (s : ServerState) (now : Nat) (project : ProjectCreate) :
    Project × ServerState :=
  let project_obj : Project :=
    { id := genId s.nextId, title := project.title,
      description := project.description, tech_stack := project.tech_stack,
      image_url := project.image_url, demo_url := project.demo_url,
      github_url := project.github_url, category := project.category,
      created_date := now, featured := project.featured }
  (project_obj,
   { s with projects := s.projects ++ [project_obj.dict],
            nextId := s.nextId + 1 })

/-- `POST /api/projects` from the raw request body: validation then
enrichment/insertion; a validation failure is a 422 and no write. -/
def create_project_route (s : ServerState) (now : Nat) (body : Doc) :
    Except HTTPError Project × ServerState :=
  match ProjectCreate.parse body with
  | Except.error e => (Except.error (422, e), s)
  | Except.ok project =>
    let r := create_project s now project
    (Except.ok r.1, r.2)

/-- `DELETE /api/projects/{project_id}` (`delete_project`): `delete_one`
removes the first matching document; 404 when `deleted_count` is zero. -/
def delete_project (s : ServerState) (project_id : String) :
    Except HTTPError String × ServerState :=
  if s.projects.any (matchesId project_id) then
    (Except.ok "Project deleted successfully",
     { s with projects := s.projects.eraseP (matchesId project_id) })
  else
    (Except.error (404, "Project not found"), s)

/-- The six fixed sample records of `create_sample_projects`.  In the source
they are plain dicts with exactly the `ProjectCreate` fields, passed to
`Project(**project_data)`. -/
def sample_projects : List ProjectCreate :=
  [{ title := "AI-Powered Chat Application",
     description := "A modern chat application with AI integration, real-time messaging, and beautiful UI. Features include smart responses, conversation history, and responsive design.",
     tech_stack := ["React", "Node.js", "OpenAI", "Socket.io", "MongoDB"],
     image_url := "https://images.unsplash.com/photo-1587620962725-abab7fe55159?ixlib=rb-4.0.3&ixid=M3wxMjA3fDB8MHxwaG90by1wYWdlfHx8fGVufDB8fHx8fA%3D%3D&auto=format&fit=crop&w=1000&q=80",
     demo_url := some "https://demo-chat.example.com",
     github_url := some "https://github.com/user/ai-chat",
     category := "Web Application",
     featured := true },
   { title := "3D Portfolio Website",
     description := "An interactive 3D portfolio showcasing projects with geometric shapes and smooth animations. Built with Three.js and React for an immersive user experience.",
     tech_stack := ["React", "Three.js", "React Three Fiber", "FastAPI", "MongoDB"],
     image_url := "https://images.unsplash.com/photo-1633356122544-f134324a6cee?ixlib=rb-4.0.3&ixid=M3wxMjA3fDB8MHxwaG90by1wYWdlfHx8fGVufDB8fHx8fA%3D%3D&auto=format&fit=crop&w=1000&q=80",
     demo_url := some "https://portfolio-3d.example.com",
     github_url := some "https://github.com/user/3d-portfolio",
     category := "Portfolio",
     featured := true },
   { title := "E-commerce Platform",
     description := "Full-stack e-commerce solution with payment integration, inventory management, and admin dashboard. Features modern design and seamless user experience.",
     tech_stack := ["React", "Express.js", "Stripe", "PostgreSQL", "Redis"],
     image_url := "https://images.unsplash.com/photo-1556742049-0cfed4f6a45d?ixlib=rb-4.0.3&ixid=M3wxMjA3fDB8MHxwaG90by1wYWdlfHx8fGVufDB8fHx8fA%3D%3D&auto=format&fit=crop&w=1000&q=80",
     demo_url := some "https://shop.example.com",
     github_url := some "https://github.com/user/ecommerce",
     category := "E-commerce",
     featured := false },
   { title := "Data Visualization Dashboard",
     description := "Interactive dashboard for data analytics with charts, graphs, and real-time updates. Perfect for business intelligence and data-driven decisions.",
     tech_stack := ["React", "D3.js", "Python", "FastAPI", "PostgreSQL"],
     image_url := "https://images.unsplash.com/photo-1551288049-bebda4e38f71?ixlib=rb-4.0.3&ixid=M3wxMjA3fDB8MHxwaG90by1wYWdlfHx8fGVufDB8fHx8fA%3D%3D&auto=format&fit=crop&w=1000&q=80",
     demo_url := some "https://dashboard.example.com",
     github_url := some "https://github.com/user/dashboard",
     category := "Data Analytics",
     featured := true },
   { title := "Mobile Game Development",
     description := "Engaging mobile game with 3D graphics, physics simulation, and multiplayer capabilities. Optimized for performance across all devices.",
     tech_stack := ["Unity", "C#", "Firebase", "Photon", "Blender"],
     image_url := "https://images.unsplash.com/photo-1493711662062-fa541adb3fc8?ixlib=rb-4.0.3&ixid=M3wxMjA3fDB8MHxwaG90by1wYWdlfHx8fGVufDB8fHx8fA%3D%3D&auto=format&fit=crop&w=1000&q=80",
     demo_url := some "https://play.google.com/store/apps/details?id=com.example.game",
     github_url := some "https://github.com/user/mobile-game",
     category := "Game Development",
     featured := false },
   { title := "Blockchain DeFi Platform",
     description := "Decentralized finance platform with smart contracts, yield farming, and token swapping. Built on Ethereum with modern web3 integration.",
     tech_stack := ["Solidity", "React", "Web3.js", "Hardhat", "IPFS"],
     image_url := "https://images.unsplash.com/photo-1639762681485-074b7f938ba0?ixlib=rb-4.0.3&ixid=M3wxMjA3fDB8MHxwaG90by1wYWdlfHx8fGVufDB8fHx8fA%3D%3D&auto=format&fit=crop&w=1000&q=80",
     demo_url := some "https://defi.example.com",
     github_url := some "https://github.com/user/defi-platform",
     category := "Blockchain",
     featured := true }]

/-- The insertion loop of `create_sample_projects`: construct each record
(fresh id, current time), insert it, and collect it. -/
def seedLoop (now : Nat) : ServerState → List ProjectCreate →
    List Project × ServerState
  | s, [] => ([], s)
  | s, pd :: pds =>
    let r := create_project s now pd
    let rest := seedLoop now r.2 pds
    (r.1 :: rest.1, rest.2)

/-- `POST /api/projects/sample` (`create_sample_projects`): `delete_many`
clears the whole collection, then the six fixed records are constructed and
inserted one by one. -/
def create_sample_projects (s : ServerState) (now : Nat) :
    (String × List Project) × ServerState :=
  let cleared : ServerState := { s with projects := [] }
  let r := seedLoop now cleared sample_projects
  (("Created " ++ toString r.1.length ++ " sample projects", r.1), r.2)

/-- Well-formedness of the identifier supply: every stored project document
carries an id that was issued by the counter.  This holds of every state
reachable from a fresh database, since all writes go through
`create_project` / `create_sample_projects`. -/
def WF (s : ServerState) : Prop :=
  ∀ d ∈ s.projects, ∃ m, m < s.nextId ∧ d.get "id" = some (BValue.str (genId m))

/-- The looked-up value is present and of string shape. -/
def isStrVal : Option BValue → Prop
  | some (BValue.str _) => True
  | _ => False

/-- The looked-up value is present and a list of strings. -/
def isStrListVal : Option BValue → Prop
  | some (BValue.list xs) => ∀ v ∈ xs, ∃ s, v = BValue.str s
  | _ => False

/-- The field names declared by `ProjectCreate`; every other key of a
request body is undeclared and ignored by validation. -/
def projectCreateFields : List String :=
  ["title", "description", "tech_stack", "image_url", "demo_url",
   "github_url", "category", "featured"]

/-- A fresh database: both collections empty, no identifier issued yet. -/
def emptyState : ServerState :=
  { projects := [], status_checks := [], nextId := 0 }

/-- A well-formed project-create request body supplying every field. -/
def demoBody : Doc :=
  [("title", BValue.str "Test Project"),
   ("description", BValue.str "A test project"),
   ("tech_stack", BValue.list [BValue.str "Python", BValue.str "FastAPI"]),
   ("image_url", BValue.str "https://example.com/img.png"),
   ("demo_url", BValue.str "https://test.example.com"),
   ("github_url", BValue.str "https://github.com/user/test-project"),
   ("category", BValue.str "Testing"),
   ("featured", BValue.bool true)]

/-- The `ProjectCreate` value validated from `demoBody`. -/
def pcDemo : ProjectCreate :=
  { title := "Test Project", description := "A test project",
    tech_stack := ["Python", "FastAPI"],
    image_url := "https://example.com/img.png",
    demo_url := some "https://test.example.com",
    github_url := some "https://github.com/user/test-project",
    category := "Testing", featured := true }

/-- The project record created from `demoBody` on a fresh database at
time 5. -/
def pDemo : Project :=
  { id := genId 0, title := "Test Project", description := "A test project",
    tech_stack := ["Python", "FastAPI"],
    image_url := "https://example.com/img.png",
    demo_url := some "https://test.example.com",
    github_url := some "https://github.com/user/test-project",
    category := "Testing", created_date := 5, featured := true }

/-- A state holding exactly the stored document of `pDemo`. -/
def oneProjState : ServerState :=
  { projects := [pDemo.dict], status_checks := [], nextId := 1 }

/-- A request body omitting the optional fields and `featured`. -/
def demoBodyNoOpt : Doc :=
  [("title", BValue.str "Test Project"),
   ("description", BValue.str "A test project"),
   ("tech_stack", BValue.list [BValue.str "Python", BValue.str "FastAPI"]),
   ("image_url", BValue.str "https://example.com/img.png"),
   ("category", BValue.str "Testing")]

/-- The `ProjectCreate` value validated from `demoBodyNoOpt`. -/
def pcDemoNoOpt : ProjectCreate :=
  { title := "Test Project", description := "A test project",
    tech_stack := ["Python", "FastAPI"],
    image_url := "https://example.com/img.png",
    demo_url := none, github_url := none,
    category := "Testing", featured := false }

/-- A request body whose required `title` field is the empty string. -/
def bodyEmptyTitle : Doc :=
  [("title", BValue.str ""),
   ("description", BValue.str "A test project"),
   ("tech_stack", BValue.list [BValue.str "Python"]),
   ("image_url", BValue.str "https://example.com/img.png"),
   ("category", BValue.str "Testing")]

/-- The `ProjectCreate` value validated from `bodyEmptyTitle`. -/
def pcEmptyTitle : ProjectCreate :=
  { title := "", description := "A test project",
    tech_stack := ["Python"],
    image_url := "https://example.com/img.png",
    demo_url := none, github_url := none,
    category := "Testing", featured := false }

/-- A request body omitting the required `title` field. -/
def bodyNoTitle : Doc :=
  [("description", BValue.str "A test project"),
   ("tech_stack", BValue.list [BValue.str "Python"]),
   ("image_url", BValue.str "https://example.com/img.png"),
   ("category", BValue.str "Testing")]

/-- Undeclared extra fields for a create request, including a
client-supplied `id` and `created_date`. -/
def extraFields : Doc :=
  [("id", BValue.str "client-chosen-id"),
   ("created_date", BValue.date 999),
   ("unknown_field", BValue.int 1)]

/-! Helper lemmas shared by the claim theorems. -/

/-- The identifier supply is injective: distinct counter values give
distinct identifiers (the model of uuid uniqueness). -/
theorem genId_inj {m n : Nat} (h : genId m = genId n) : m = n := by
  have hl := congrArg String.length h
  simpa [genId, String.length] using hl

/-- Inversion for `Except` bind. -/
theorem except_bind_ok {ε α β : Type} {x : Except ε α} {f : α → Except ε β}
    {b : β} (h : (x >>= f) = Except.ok b) :
    ∃ a, x = Except.ok a ∧ f a = Except.ok b := by
  cases x with
  | error e => exact absurd h (by simp [Bind.bind, Except.bind])
  | ok a => exact ⟨a, rfl, h⟩

/-- Inversion: a required string field validates only on a string value. -/
theorem reqStr_ok {fn s : String} {v : Option BValue}
    (h : reqStr fn v = Except.ok s) : v = some (BValue.str s) := by
  cases v with
  | none => simp [reqStr] at h
  | some b => cases b <;> simp_all [reqStr]

/-- Inversion for a single list element. -/
theorem strElem_ok {fn s : String} {v : BValue}
    (h : strElem fn v = Except.ok s) : v = BValue.str s := by
  cases v <;> simp_all [strElem]

/-- Inversion: a validated element list is a list of string values. -/
theorem strElems_ok (fn : String) : ∀ {vs : List BValue} {ss : List String},
    strElems fn vs = Except.ok ss → vs = ss.map BValue.str := by
  intro vs
  induction vs with
  | nil =>
    intro ss h
    simp only [strElems] at h
    cases h
    rfl
  | cons v vs ih =>
    intro ss h
    simp only [strElems] at h
    obtain ⟨s, hs, h⟩ := except_bind_ok h
    obtain ⟨ss', hss', h⟩ := except_bind_ok h
    cases h
    simp [strElem_ok hs, ih hss']

/-- Validation succeeds on lists of strings. -/
theorem strElems_map_str (fn : String) (ss : List String) :
    strElems fn (ss.map BValue.str) = Except.ok ss := by
  induction ss with
  | nil => rfl
  | cons s ss ih =>
    simp [strElems, strElem, ih, Bind.bind, Except.bind]

/-- Inversion: a required `List[str]` field validates only on a list of
string values. -/
theorem reqStrList_ok {fn : String} {v : Option BValue} {ss : List String}
    (h : reqStrList fn v = Except.ok ss) :
    v = some (BValue.list (ss.map BValue.str)) := by
  cases v with
  | none => simp [reqStrList] at h
  | some b =>
    cases b with
    | list xs =>
      have hx := strElems_ok fn (by simpa [reqStrList] using h)
      simp [hx]
    | str s => simp [reqStrList] at h
    | int n => simp [reqStrList] at h
    | bool b => simp [reqStrList] at h
    | null => simp [reqStrList] at h
    | date t => simp [reqStrList] at h

/-- Inversion for an `Optional[str]` field. -/
theorem optStr_ok {fn : String} {v : Option BValue} {o : Option String}
    (h : optStr fn v = Except.ok o) :
    (o = none ∧ (v = none ∨ v = some BValue.null)) ∨
      ∃ s, o = some s ∧ v = some (BValue.str s) := by
  cases v with
  | none => simp [optStr] at h; simp [h]
  | some b => cases b <;> simp_all [optStr]

/-- Inversion for a `bool` field with default. -/
theorem optBool_ok {fn : String} {dflt b : Bool} {v : Option BValue}
    (h : optBool fn dflt v = Except.ok b) :
    v = some (BValue.bool b) ∨ (v = none ∧ b = dflt) := by
  cases v with
  | none => simp [optBool] at h; simp [h]
  | some c => cases c <;> simp_all [optBool]

/-- Inversion for a required datetime field. -/
theorem reqDate_ok {fn : String} {t : Nat} {v : Option BValue}
    (h : reqDate fn v = Except.ok t) : v = some (BValue.date t) := by
  cases v with
  | none => simp [reqDate] at h
  | some b => cases b <;> simp_all [reqDate]

/-- Characterisation of a successful `ProjectCreate` validation: every
declared field validated against its looked-up value. -/
theorem projectCreate_parse_ok {d : Doc} {pc : ProjectCreate}
    (h : ProjectCreate.parse d = Except.ok pc) :
    reqStr "title" (d.get "title") = Except.ok pc.title ∧
    reqStr "description" (d.get "description") = Except.ok pc.description ∧
    reqStrList "tech_stack" (d.get "tech_stack") = Except.ok pc.tech_stack ∧
    reqStr "image_url" (d.get "image_url") = Except.ok pc.image_url ∧
    optStr "demo_url" (d.get "demo_url") = Except.ok pc.demo_url ∧
    optStr "github_url" (d.get "github_url") = Except.ok pc.github_url ∧
    reqStr "category" (d.get "category") = Except.ok pc.category ∧
    optBool "featured" false (d.get "featured") = Except.ok pc.featured := by
  unfold ProjectCreate.parse at h
  obtain ⟨t, ht, h⟩ := except_bind_ok h
  obtain ⟨de, hde, h⟩ := except_bind_ok h
  obtain ⟨ts, hts, h⟩ := except_bind_ok h
  obtain ⟨iu, hiu, h⟩ := except_bind_ok h
  obtain ⟨du, hdu, h⟩ := except_bind_ok h
  obtain ⟨gu, hgu, h⟩ := except_bind_ok h
  obtain ⟨c, hc, h⟩ := except_bind_ok h
  obtain ⟨f, hf, h⟩ := except_bind_ok h
  cases h
  exact ⟨ht, hde, hts, hiu, hdu, hgu, hc, hf⟩

/-- Characterisation of a successful `StatusCheckCreate` validation. -/
theorem statusCheckCreate_parse_ok {d : Doc} {sc : StatusCheckCreate}
    (h : StatusCheckCreate.parse d = Except.ok sc) :
    reqStr "client_name" (d.get "client_name") =
      Except.ok sc.client_name := by
  unfold StatusCheckCreate.parse at h
  obtain ⟨c, hc, h⟩ := except_bind_ok h
  cases h
  exact hc

/-- A document matches the id filter exactly when its `id` field is the
string value of the filter. -/
theorem matchesId_iff {pid : String} {d : Doc} :
    matchesId pid d = true ↔ d.get "id" = some (BValue.str pid) := by
  unfold matchesId
  cases hv : d.get "id" with
  | none => simp
  | some b => cases b <;> simp

/-- Reconstruction of a serialised project yields the project back. -/
theorem project_ofDoc_dict (p : Project) :
    Project.ofDoc p.dict = Except.ok p := by
  obtain ⟨i, t, de, ts, iu, du, gu, c, cd, f⟩ := p
  cases du <;> cases gu <;>
    simp [Project.ofDoc, Project.dict, Doc.get, List.find?, reqStr,
      reqStrList, optStr, optBool, reqDate, optStrVal, strElems_map_str,
      Bind.bind, Except.bind]

/-- Reconstruction of a serialised status check yields it back. -/
theorem statusCheck_ofDoc_dict (c : StatusCheck) :
    StatusCheck.ofDoc c.dict = Except.ok c := by
  obtain ⟨i, n, ts⟩ := c
  simp [StatusCheck.ofDoc, StatusCheck.dict, Doc.get, List.find?, reqStr,
    reqDate, Bind.bind, Except.bind]

/-- Lookup distributes over append when the appended part lacks the key. -/
theorem Doc.get_append {d extra : Doc} {k : String}
    (h : ∀ kv ∈ extra, kv.1 ≠ k) :
    Doc.get (d ++ extra) k = Doc.get d k := by
  unfold Doc.get
  rw [List.find?_append]
  have hnone : extra.find? (fun kv => kv.1 == k) = none := by
    rw [List.find?_eq_none]
    intro kv hkv
    simp [h kv hkv]
  rw [hnone]
  cases d.find? (fun kv => kv.1 == k) <;> simp

/-- Validation reads only the declared fields. -/
theorem ProjectCreate.parse_congr {d₁ d₂ : Doc}
    (h : ∀ k ∈ projectCreateFields, d₁.get k = d₂.get k) :
    ProjectCreate.parse d₁ = ProjectCreate.parse d₂ := by
  unfold ProjectCreate.parse
  rw [h "title" (by simp [projectCreateFields]),
      h "description" (by simp [projectCreateFields]),
      h "tech_stack" (by simp [projectCreateFields]),
      h "image_url" (by simp [projectCreateFields]),
      h "demo_url" (by simp [projectCreateFields]),
      h "github_url" (by simp [projectCreateFields]),
      h "category" (by simp [projectCreateFields]),
      h "featured" (by simp [projectCreateFields])]

/-- Erasing the unique match removes every match. -/
theorem countP_eraseP_eq_zero {α : Type} {p : α → Bool} {l : List α}
    (h : l.countP p = 1) : (l.eraseP p).countP p = 0 := by
  induction l with
  | nil => simp
  | cons a l ih =>
    by_cases ha : p a
    · have : l.countP p = 0 := by
        rw [List.countP_cons_of_pos _ _ ha] at h
        omega
      rw [List.eraseP_cons_of_pos ha]
      exact this
    · rw [List.countP_cons_of_neg _ _ ha] at h
      rw [List.eraseP_cons_of_neg ha, List.countP_cons_of_neg _ _ ha]
      exact ih h

/-- When every stored document reconstructs, so does the whole listing. -/
theorem parseAll_ok {α : Type} {f : Doc → Except String α} :
    ∀ {l : List Doc}, (∀ d ∈ l, ∃ a, f d = Except.ok a) →
      ∃ xs, parseAll f l = Except.ok xs ∧ xs.length = l.length := by
  intro l
  induction l with
  | nil => exact fun _ => ⟨[], rfl, rfl⟩
  | cons d ds ih =>
    intro h
    obtain ⟨a, ha⟩ := h d (by simp)
    obtain ⟨xs, hxs, hlen⟩ := ih (fun d' hd' => h d' (by simp [hd']))
    refine ⟨a :: xs, ?_, by simp [hlen]⟩
    simp [parseAll, ha, hxs, Bind.bind, Except.bind]

/-! Claim theorems. -/

/-- C1: for every valid `ProjectCreate` input, the create-project operation
returns a stored `Project` whose id is freshly generated server-side
(distinct from every previously issued id and from every stored id), whose
`created_date` is the current time at enrichment, whose client-supplied
fields are copied verbatim, and whose `featured` field is false when the
client did not supply it. -/
theorem create_project_enrichment (s : ServerState) (now : Nat) (body : Doc)
    (pc : ProjectCreate) (hWF : WF s)
    (hok : ProjectCreate.parse body = Except.ok pc) :
    ∃ p s', create_project_route s now body = (Except.ok p, s') ∧
      s'.projects = s.projects ++ [p.dict] ∧
      p.id = genId s.nextId ∧
      (∀ m, m < s.nextId → p.id ≠ genId m) ∧
      (∀ d ∈ s.projects, d.get "id" ≠ some (BValue.str p.id)) ∧
      p.created_date = now ∧
      p.title = pc.title ∧ p.description = pc.description ∧
      p.tech_stack = pc.tech_stack ∧ p.image_url = pc.image_url ∧
      p.category = pc.category ∧ p.demo_url = pc.demo_url ∧
      p.github_url = pc.github_url ∧ p.featured = pc.featured ∧
      (body.get "featured" = none → p.featured = false) := by
  refine ⟨(create_project s now pc).1, (create_project s now pc).2,
    by simp [create_project_route, hok], rfl, rfl, ?_, ?_, rfl, rfl, rfl,
    rfl, rfl, rfl, rfl, rfl, rfl, ?_⟩
  · intro m hm heq
    exact absurd (genId_inj heq) (by omega)
  · intro d hd heq
    obtain ⟨m, hm, hid⟩ := hWF d hd
    rw [hid] at heq
    have : genId m = genId s.nextId := by
      simpa using heq
    exact absurd (genId_inj this) (by omega)
  · intro hnone
    have h8 := (projectCreate_parse_ok hok).2.2.2.2.2.2.2
    rw [hnone] at h8
    have : pc.featured = false := by simpa [optBool] using h8.symm
    simpa [create_project] using this

/-- Witness for C1: a concrete create on a fresh database, with the
optional fields and `featured` omitted from the request body. -/
theorem create_project_enrichment_witness :
    ∃ p s',
      create_project_route emptyState 5 demoBodyNoOpt = (Except.ok p, s') ∧
      s'.projects = emptyState.projects ++ [p.dict] ∧
      p.id = genId emptyState.nextId ∧
      (∀ m, m < emptyState.nextId → p.id ≠ genId m) ∧
      (∀ d ∈ emptyState.projects, d.get "id" ≠ some (BValue.str p.id)) ∧
      p.created_date = 5 ∧
      p.title = pcDemoNoOpt.title ∧
      p.description = pcDemoNoOpt.description ∧
      p.tech_stack = pcDemoNoOpt.tech_stack ∧
      p.image_url = pcDemoNoOpt.image_url ∧
      p.category = pcDemoNoOpt.category ∧
      p.demo_url = pcDemoNoOpt.demo_url ∧
      p.github_url = pcDemoNoOpt.github_url ∧
      p.featured = pcDemoNoOpt.featured ∧
      (demoBodyNoOpt.get "featured" = none → p.featured = false) :=
  create_project_enrichment emptyState 5 demoBodyNoOpt pcDemoNoOpt
    (by simp [WF, emptyState]) (by rfl)

/-- C2: the seed operation deletes every existing project and inserts the
six fixed samples: afterwards the catalog holds exactly 6 documents whose
categories are Web Application, Portfolio, E-commerce, Data Analytics,
Game Development and Blockchain, whatever the prior state; running it twice
in a row still leaves exactly 6. -/
theorem seed_results_in_six_categories (s : ServerState) (now now₂ : Nat) :
    (create_sample_projects s now).2.projects.length = 6 ∧
    (create_sample_projects s now).2.projects.map
        (fun d => d.get "category") =
      [some (BValue.str "Web Application"), some (BValue.str "Portfolio"),
       some (BValue.str "E-commerce"), some (BValue.str "Data Analytics"),
       some (BValue.str "Game Development"),
       some (BValue.str "Blockchain")] ∧
    (create_sample_projects
        (create_sample_projects s now).2 now₂).2.projects.length = 6 := by
  refine ⟨?_, ?_, ?_⟩ <;>
    simp [create_sample_projects, seedLoop, sample_projects, create_project,
      Project.dict, Doc.get, List.find?]

/-- C3: deletion fails with 404 exactly when no stored document matches the
id; when exactly one matches, the operation returns the success message and
a subsequent get of that id is a 404. -/
theorem delete_project_not_found_iff (s : ServerState) (pid : String) :
    ((delete_project s pid).1 = Except.error (404, "Project not found") ↔
      s.projects.countP (matchesId pid) = 0) ∧
    (s.projects.countP (matchesId pid) = 1 →
      (delete_project s pid).1 = Except.ok "Project deleted successfully" ∧
      get_project (delete_project s pid).2 pid =
        Except.error (404, "Project not found")) := by
  constructor
  · by_cases hany : s.projects.any (matchesId pid)
    · have hpos : 0 < s.projects.countP (matchesId pid) :=
        List.countP_pos_iff.mpr (List.any_eq_true.mp hany)
      simp only [delete_project, hany, if_true]
      constructor
      · intro hfalse
        exact absurd hfalse (by simp)
      · intro h0
        omega
    · have h0 : s.projects.countP (matchesId pid) = 0 :=
        List.countP_eq_zero.mpr fun a ha hpa =>
          hany (List.any_eq_true.mpr ⟨a, ha, hpa⟩)
      simp [delete_project, hany, h0]
  · intro h1
    have hany : s.projects.any (matchesId pid) = true :=
      List.any_eq_true.mpr (List.countP_pos_iff.mp (by omega))
    have hzero : (s.projects.eraseP (matchesId pid)).countP (matchesId pid)
        = 0 := countP_eraseP_eq_zero h1
    have hnone : (s.projects.eraseP (matchesId pid)).find? (matchesId pid)
        = none :=
      List.find?_eq_none.mpr (List.countP_eq_zero.mp hzero)
    constructor
    · simp [delete_project, hany]
    · simp [delete_project, hany, get_project, hnone]

/-- Witness for C3: deleting the only record of the singleton catalog
succeeds, and a subsequent get of that id is a 404. -/
theorem delete_project_not_found_iff_witness :
    (delete_project oneProjState pDemo.id).1 =
      Except.ok "Project deleted successfully" ∧
    get_project (delete_project oneProjState pDemo.id).2 pDemo.id =
      Except.error (404, "Project not found") :=
  (delete_project_not_found_iff oneProjState pDemo.id).2 (by rfl)

/-- C4: get-by-id returns the stored record (the first document matching
the id, reconstructed) when one exists, and a 404 otherwise. -/
theorem get_project_found_or_not_found (s : ServerState) (pid : String)
    (hparse : ∀ d ∈ s.projects, ∃ q, Project.ofDoc d = Except.ok q) :
    ((∀ d ∈ s.projects, ¬ matchesId pid d) →
      get_project s pid = Except.error (404, "Project not found")) ∧
    ((∃ d ∈ s.projects, matchesId pid d) →
      ∃ d p, s.projects.find? (matchesId pid) = some d ∧ d ∈ s.projects ∧
        Project.ofDoc d = Except.ok p ∧
        get_project s pid = Except.ok p) := by
  constructor
  · intro habs
    have hnone : s.projects.find? (matchesId pid) = none :=
      List.find?_eq_none.mpr habs
    simp [get_project, hnone]
  · intro hex
    have hsome : (s.projects.find? (matchesId pid)).isSome :=
      List.find?_isSome.mpr hex
    obtain ⟨d, hd⟩ := Option.isSome_iff_exists.mp hsome
    obtain ⟨q, hq⟩ := hparse d (List.mem_of_find?_eq_some hd)
    exact ⟨d, q, hd, List.mem_of_find?_eq_some hd, hq,
      by simp [get_project, hd, hq]⟩

/-- Witness for C4: the stored record of the singleton catalog is found by
its id. -/
theorem get_project_found_or_not_found_witness :
    ∃ d p, oneProjState.projects.find? (matchesId pDemo.id) = some d ∧
      d ∈ oneProjState.projects ∧
      Project.ofDoc d = Except.ok p ∧
      get_project oneProjState pDemo.id = Except.ok p :=
  (get_project_found_or_not_found oneProjState pDemo.id
    (fun d hd => ⟨pDemo, by
      have : d = pDemo.dict := by simpa [oneProjState] using hd
      rw [this, project_ofDoc_dict]⟩)).2
    ⟨pDemo.dict, by simp [oneProjState], by rw [matchesId_iff]; rfl⟩

/-- C5: a create request (project or status check) with a required field
missing or of the wrong basic type is rejected with a 4xx validation error
and no store write happens: the state is returned unchanged. -/
theorem invalid_create_rejected_no_write (s : ServerState) (now : Nat)
    (body : Doc) :
    ((¬ isStrVal (body.get "title") ∨ ¬ isStrVal (body.get "description") ∨
      ¬ isStrListVal (body.get "tech_stack") ∨
      ¬ isStrVal (body.get "image_url") ∨
      ¬ isStrVal (body.get "category")) →
      ∃ e, create_project_route s now body = (Except.error (422, e), s)) ∧
    (¬ isStrVal (body.get "client_name") →
      ∃ e, create_status_check_route s now body =
        (Except.error (422, e), s)) := by
  constructor
  · intro hbad
    cases hp : ProjectCreate.parse body with
    | error e => exact ⟨e, by simp [create_project_route, hp]⟩
    | ok pc =>
      exfalso
      obtain ⟨h1, h2, h3, h4, _, _, h7, _⟩ := projectCreate_parse_ok hp
      rcases hbad with hb | hb | hb | hb | hb
      · exact hb (by rw [reqStr_ok h1]; trivial)
      · exact hb (by rw [reqStr_ok h2]; trivial)
      · refine hb ?_
        rw [reqStrList_ok h3]
        intro v hv
        simp only [List.mem_map] at hv
        obtain ⟨a, _, ha⟩ := hv
        exact ⟨a, ha.symm⟩
      · exact hb (by rw [reqStr_ok h4]; trivial)
      · exact hb (by rw [reqStr_ok h7]; trivial)
  · intro hbad
    cases hp : StatusCheckCreate.parse body with
    | error e => exact ⟨e, by simp [create_status_check_route, hp]⟩
    | ok sc =>
      exact absurd (by rw [reqStr_ok (statusCheckCreate_parse_ok hp)]; trivial)
        hbad

/-- Witness for C5: a body missing `title` (and `client_name`) is rejected
by both create routes, leaving the fresh state unchanged. -/
theorem invalid_create_rejected_no_write_witness :
    (∃ e, create_project_route emptyState 0 bodyNoTitle =
      (Except.error (422, e), emptyState)) ∧
    (∃ e, create_status_check_route emptyState 0 bodyNoTitle =
      (Except.error (422, e), emptyState)) :=
  ⟨(invalid_create_rejected_no_write emptyState 0 bodyNoTitle).1
      (Or.inl (by simp [bodyNoTitle, Doc.get, List.find?, isStrVal])),
    (invalid_create_rejected_no_write emptyState 0 bodyNoTitle).2
      (by simp [bodyNoTitle, Doc.get, List.find?, isStrVal])⟩

/-- C6: creating a project and immediately fetching it by the returned id
yields the creation response itself. -/
theorem create_then_get_roundtrip (s : ServerState) (now : Nat) (body : Doc)
    (p : Project) (s' : ServerState) (hWF : WF s)
    (h : create_project_route s now body = (Except.ok p, s')) :
    get_project s' p.id = Except.ok p := by
  cases hp : ProjectCreate.parse body with
  | error e => simp [create_project_route, hp] at h
  | ok pc =>
    simp only [create_project_route, hp, Prod.mk.injEq] at h
    obtain ⟨h1, h2⟩ := h
    cases h1
    subst h2
    have hnone : s.projects.find? (matchesId
        (create_project s now pc).1.id) = none := by
      rw [List.find?_eq_none]
      intro d hd hmi
      obtain ⟨m, hm, hid⟩ := hWF d hd
      have := matchesId_iff.mp hmi
      rw [hid] at this
      have : genId m = (create_project s now pc).1.id := by simpa using this
      have : genId m = genId s.nextId := this
      exact absurd (genId_inj this) (by omega)
    have hself : matchesId (create_project s now pc).1.id
        (create_project s now pc).1.dict = true := by
      rw [matchesId_iff]
      simp [Project.dict, Doc.get, List.find?]
    show get_project { s with
        projects := s.projects ++ [(create_project s now pc).1.dict],
        nextId := s.nextId + 1 } (create_project s now pc).1.id =
      Except.ok (create_project s now pc).1
    rw [get_project, List.find?_append, hnone]
    simp only [Option.none_or, List.find?_cons, hself]
    rw [project_ofDoc_dict]

/-- Witness for C6: create on a fresh database, then get by the returned
id. -/
theorem create_then_get_roundtrip_witness :
    get_project (create_project_route emptyState 5 demoBody).2 pDemo.id =
      Except.ok pDemo :=
  create_then_get_roundtrip emptyState 5 demoBody pDemo
    (create_project_route emptyState 5 demoBody).2
    (by simp [WF, emptyState]) (by rfl)

/-- C7 counterexample: a create request whose required `title` field is the
empty string is accepted, not rejected: validation succeeds and a record is
stored, contradicting the claim that required fields must be non-empty. -/
theorem empty_string_accepted_counterexample :
    ProjectCreate.parse bodyEmptyTitle = Except.ok pcEmptyTitle ∧
    pcEmptyTitle.title = "" ∧
    (create_project_route emptyState 3 bodyEmptyTitle).2.projects.length
      = 1 :=
  ⟨rfl, rfl, rfl⟩

/-- C7 amended: a create request in which a required string field is
present but equal to the empty string passes validation: the operation
stores a record carrying the empty string (the validator checks presence
and string type, not non-emptiness). -/
theorem empty_string_fields_accepted (s : ServerState) (now : Nat)
    (body : Doc) (pc : ProjectCreate)
    (hok : ProjectCreate.parse body = Except.ok pc)
    (ht : body.get "title" = some (BValue.str "")) :
    ∃ p s', create_project_route s now body = (Except.ok p, s') ∧
      p.title = "" ∧ s'.projects.length = s.projects.length + 1 := by
  have h1 := (projectCreate_parse_ok hok).1
  rw [ht] at h1
  have htitle : pc.title = "" := by simpa [reqStr] using h1.symm
  refine ⟨(create_project s now pc).1, (create_project s now pc).2,
    by simp [create_project_route, hok], ?_, ?_⟩
  · simpa [create_project] using htitle
  · simp [create_project]

/-- Witness for C7 amended: the empty-title body on a fresh database. -/
theorem empty_string_fields_accepted_witness :
    ∃ p s', create_project_route emptyState 3 bodyEmptyTitle =
        (Except.ok p, s') ∧
      p.title = "" ∧
      s'.projects.length = emptyState.projects.length + 1 :=
  empty_string_fields_accepted emptyState 3 bodyEmptyTitle pcEmptyTitle
    (by rfl) (by rfl)

/-- C8 counterexample: a valid create request omitting `demo_url` still
produces a stored document in which the `demo_url` key is present with a
null value, contradicting the claim that the field is left absent. -/
theorem optional_fields_null_counterexample :
    demoBodyNoOpt.get "demo_url" = none ∧
    (create_project_route emptyState 7 demoBodyNoOpt).2.projects.map
      (fun d => d.get "demo_url") = [some BValue.null] :=
  ⟨rfl, rfl⟩

/-- C8 amended: when `demo_url`/`github_url` are not supplied, the typed
record carries them as `None`, and both the stored document and the
serialised response carry the keys with a null value (present with null,
not absent). -/
theorem optional_fields_stored_as_null (s : ServerState) (now : Nat)
    (body : Doc) (p : Project) (s' : ServerState)
    (hd : body.get "demo_url" = none) (hg : body.get "github_url" = none)
    (h : create_project_route s now body = (Except.ok p, s')) :
    p.demo_url = none ∧ p.github_url = none ∧
    s'.projects.getLast? = some p.dict ∧
    p.dict.get "demo_url" = some BValue.null ∧
    p.dict.get "github_url" = some BValue.null := by
  cases hp : ProjectCreate.parse body with
  | error e => simp [create_project_route, hp] at h
  | ok pc =>
    obtain ⟨_, _, _, _, h5, h6, _, _⟩ := projectCreate_parse_ok hp
    rw [hd] at h5
    rw [hg] at h6
    have hdu : pc.demo_url = none := by simpa [optStr] using h5.symm
    have hgu : pc.github_url = none := by simpa [optStr] using h6.symm
    simp only [create_project_route, hp, Prod.mk.injEq] at h
    obtain ⟨h1, h2⟩ := h
    cases h1
    subst h2
    refine ⟨by simpa [create_project] using hdu,
      by simpa [create_project] using hgu,
      by simp [create_project], ?_, ?_⟩
    · simp [Project.dict, Doc.get, List.find?, create_project, hdu,
        optStrVal]
    · simp [Project.dict, Doc.get, List.find?, create_project, hgu,
        optStrVal]

/-- Witness for C8 amended: the concrete create without optional fields. -/
theorem optional_fields_stored_as_null_witness :
    (create_project_route emptyState 7 demoBodyNoOpt).1.toOption.map
        (fun p => p.demo_url) = some none ∧
    ((create_project_route emptyState 7 demoBodyNoOpt).2.projects.getLast?
      = some ((create_project emptyState 7 pcDemoNoOpt).1.dict)) := by
  have h := optional_fields_stored_as_null emptyState 7 demoBodyNoOpt
    (create_project emptyState 7 pcDemoNoOpt).1
    (create_project_route emptyState 7 demoBodyNoOpt).2
    (by rfl) (by rfl) (by rfl)
  exact ⟨by rfl, h.2.2.1⟩

/-- C9: the list operations never fail: an empty collection lists as the
empty sequence, and in general the listing succeeds with the stored
records capped at 1000 (silent truncation, no pagination). -/
theorem list_endpoints_total (s : ServerState) :
    (s.projects = [] → get_projects s = Except.ok []) ∧
    (s.status_checks = [] → get_status_checks s = Except.ok []) ∧
    ((∀ d ∈ s.projects, ∃ q, Project.ofDoc d = Except.ok q) →
      ∃ xs, get_projects s = Except.ok xs ∧
        xs.length = min 1000 s.projects.length) ∧
    ((∀ d ∈ s.status_checks, ∃ c, StatusCheck.ofDoc d = Except.ok c) →
      ∃ xs, get_status_checks s = Except.ok xs ∧
        xs.length = min 1000 s.status_checks.length) := by
  refine ⟨?_, ?_, ?_, ?_⟩
  · intro h
    simp [get_projects, h, parseAll]
  · intro h
    simp [get_status_checks, h, parseAll]
  · intro h
    obtain ⟨xs, hxs, hlen⟩ := parseAll_ok
      (fun d hd => h d (List.take_subset 1000 s.projects hd))
    exact ⟨xs, by simp [get_projects, hxs],
      by rw [hlen, List.length_take]⟩
  · intro h
    obtain ⟨xs, hxs, hlen⟩ := parseAll_ok
      (fun d hd => h d (List.take_subset 1000 s.status_checks hd))
    exact ⟨xs, by simp [get_status_checks, hxs],
      by rw [hlen, List.length_take]⟩

/-- Witness for C9: empty collections list as empty sequences, and the
singleton catalog lists with length 1. -/
theorem list_endpoints_total_witness :
    get_projects emptyState = Except.ok [] ∧
    get_status_checks emptyState = Except.ok [] ∧
    (∃ xs, get_projects oneProjState = Except.ok xs ∧
      xs.length = min 1000 oneProjState.projects.length) :=
  ⟨(list_endpoints_total emptyState).1 rfl,
    (list_endpoints_total emptyState).2.1 rfl,
    (list_endpoints_total oneProjState).2.2.1
      (fun d hd => ⟨pDemo, by
        have : d = pDemo.dict := by simpa [oneProjState] using hd
        rw [this, project_ofDoc_dict]⟩)⟩

/-- C10: a create payload carrying fields outside the `ProjectCreate`
shape (including a client-supplied `id` or `created_date`) is accepted,
the extra fields are ignored by validation, and the stored record's id and
`created_date` are still the server-generated values. -/
theorem extra_fields_ignored (s : ServerState) (now : Nat)
    (body extra : Doc) (pc : ProjectCreate)
    (hextra : ∀ kv ∈ extra, kv.1 ∉ projectCreateFields)
    (hok : ProjectCreate.parse body = Except.ok pc) :
    ProjectCreate.parse (body ++ extra) = Except.ok pc ∧
    ∃ p s', create_project_route s now (body ++ extra) =
        (Except.ok p, s') ∧
      p.id = genId s.nextId ∧ p.created_date = now := by
  have hcong : ProjectCreate.parse (body ++ extra) =
      ProjectCreate.parse body :=
    ProjectCreate.parse_congr (fun k hk =>
      Doc.get_append (fun kv hkv hkk => hextra kv hkv (hkk ▸ hk)))
  have hok' : ProjectCreate.parse (body ++ extra) = Except.ok pc := by
    rw [hcong, hok]
  exact ⟨hok', (create_project s now pc).1, (create_project s now pc).2,
    by simp [create_project_route, hok'], rfl, rfl⟩

/-- Witness for C10: `demoBody` extended with a client-supplied `id`, a
client-supplied `created_date` and an unknown field. -/
theorem extra_fields_ignored_witness :
    ProjectCreate.parse (demoBody ++ extraFields) = Except.ok pcDemo ∧
    ∃ p s', create_project_route emptyState 5 (demoBody ++ extraFields) =
        (Except.ok p, s') ∧
      p.id = genId emptyState.nextId ∧ p.created_date = 5 :=
  extra_fields_ignored emptyState 5 demoBody extraFields pcDemo
    (by simp [extraFields, projectCreateFields]) (by rfl)

end Portfolio
